import Mathlib

/-!
# GitHub user activity relay: event translation and HTTP error mapping

A shallow embedding of `main.go`: the record types `Event` and `Activity`,
the translation loop of `fetchGithubActivity`, the function itself over an
explicit environment (token, HTTP client, library text renderings), and
`handleActivity` over a recording response writer.
-/

namespace GithubActivity

/-! ## Data model (main.go lines 11-30) -/

/-- A Go slice value: `none` is the nil slice, `some l` a non-nil slice
holding `l`. -/
abbrev Slice (α : Type) := Option (List α)

/-- Go's `len` on a slice. -/
def Slice.len {α : Type} : Slice α → Nat
  | none => 0
  | some l => l.length

/-- The elements a `for range` loop visits. -/
def Slice.elems {α : Type} : Slice α → List α
  | none => []
  | some l => l

/-- The anonymous struct of the field `Event.Repo`. -/
structure Repo where
  Name : String
  deriving DecidableEq

/-- The anonymous struct of the field `Event.Payload`; `Commits` has type
`[]struct{}`, so its elements carry no data. -/
structure Payload where
  Action : String
  Commits : Slice Unit
  deriving DecidableEq

/-- The struct `Event` (the field `Type` is written `Type_`, `Type` being
reserved). -/
structure Event where
  Type_ : String
  Repo : Repo
  Payload : Payload
  deriving DecidableEq

/-- The struct `Activity`. -/
structure Activity where
  Type_ : String
  Message : String
  RepoName : String
  deriving DecidableEq

/-- The struct `Response`. -/
structure Response where
  Activities : Slice Activity
  deriving DecidableEq

/-! ## The translation loop (main.go lines 57-80) -/

/-- The `switch event.Type` of lines 68-77, applied to the `Activity` built at
lines 63-66 (whose `Message` is still the zero value). -/
def setMessage (event : Event) (activity : Activity) : Activity :=
  match event.Type_ with
  | "PushEvent" =>
    { activity with Message := "Pushed " ++ toString event.Payload.Commits.len ++ " commits" }
  | "IssuesEvent" =>
    { activity with Message := event.Payload.Action ++ " an issue" }
  | "WatchEvent" =>
    { activity with Message := "Starred repository" }
  | _ =>
    { activity with Message := event.Type_ }

/-- The body of `for _, event := range events`, with the slice `activities`
threaded through as the accumulator. -/
def rangeLoop (eventType : String) : List Event → List Activity → List Activity
  | [], activities => activities
  | event :: rest, activities =>
    if eventType ≠ "" ∧ event.Type_ ≠ eventType then
      rangeLoop eventType rest activities
    else
      let activity : Activity := { Type_ := event.Type_, RepoName := event.Repo.Name, Message := "" }
      let activity := setMessage event activity
      rangeLoop eventType rest (activities ++ [activity])

/-- Lines 57-80: `activities := []Activity{}` followed by the loop over the
decoded slice `events`. -/
def translate (eventType : String) (events : Slice Event) : List Activity :=
  rangeLoop eventType events.elems []

/-! ## The upstream exchange: request, response, body decoding -/

/-- An outbound `*http.Request`, as far as the program sets it: the method
and the URL string given to `http.NewRequest`, and the header entries. -/
structure Request where
  Method : String
  URL : String
  Header : List (String × String)
  deriving DecidableEq

/-- `Header.Add`: appends a value under the key. -/
def Request.addHeader (req : Request) (key value : String) : Request :=
  { req with Header := req.Header ++ [(key, value)] }

/-- `stringContainsCTLByte` of net/url: a byte below 0x20 or equal to 0x7f
(every byte of a multi-byte character is at least 0x80). -/
def stringContainsCTLByte (s : List Char) : Bool :=
  s.any fun c => decide (c.toNat < 0x20) || decide (c.toNat = 0x7f)

/-- `ishex` of net/url. -/
def ishex (c : Char) : Bool :=
  (decide ('0' ≤ c) && decide (c ≤ '9')) || (decide ('a' ≤ c) && decide (c ≤ 'f')) ||
    (decide ('A' ≤ c) && decide (c ≤ 'F'))

/-- The well-formedness scan of net/url's `unescape` in path or fragment mode:
a `%` that is not followed by two hexadecimal digits is an escape error. -/
def badEscape : List Char → Bool
  | [] => false
  | c :: rest =>
    if c = '%' then
      match rest with
      | a :: b :: rest2 => !(ishex a && ishex b) || badEscape rest2
      | _ => true
    else badEscape rest

/-- Whether `url.Parse` rejects a URL of the shape built at line 33 (scheme
`https` and host `api.github.com` are fixed and valid): the part before the
first `#` holds a control byte, or the path (up to the first `?`) or the
fragment (after the first `#`) holds a malformed percent-escape. -/
def urlParseFails (rawURL : String) : Bool :=
  let cs := rawURL.toList
  let u := cs.takeWhile (fun c => c != '#')
  let frag := (cs.dropWhile (fun c => c != '#')).drop 1
  stringContainsCTLByte u || badEscape (u.takeWhile (fun c => c != '?')) || badEscape frag

/-- `http.NewRequest(method, url, nil)` for the method `GET`: `none` is the
pair `(nil, err)` returned when the URL does not parse. -/
def NewRequest (method url : String) : Option Request :=
  if urlParseFails url then none
  else some { Method := method, URL := url, Header := [] }

/-- A JSON value, as the decoder reads it from the response body. -/
inductive JSON where
  | null
  | bool (b : Bool)
  | number (literal : String)
  | string (s : String)
  | array (elems : List JSON)
  | object (members : List (String × JSON))

/-- The body of an upstream response: `malformed` when the stream does not
start with a complete JSON value (a syntax error, or a failed or truncated
read), otherwise the first JSON value of the stream, which is all that
`Decode` reads. -/
inductive Body where
  | malformed
  | value (j : JSON)

/-- An upstream `*http.Response`. -/
structure HttpResponse where
  StatusCode : Int
  Body : Body

/-- Case folding of encoding/json's field lookup, on the characters that can
fold to an ASCII letter: the ASCII capitals, the long s (U+017F) and the Kelvin
sign (U+212A). -/
def foldRune (c : Char) : Char :=
  if c = Char.ofNat 0x17F then 's'
  else if c = Char.ofNat 0x212A then 'k'
  else c.toLower

/-- Whether the object key `key` selects the struct field tagged `name` (a
lower-case ASCII tag): an exact match, or a case-insensitive one. -/
def fieldMatches (name key : String) : Bool :=
  decide (key = name) || decide (key.toList.map foldRune = name.toList)

/-- Decoding a JSON value into a `string` field holding `cur`: a string is
stored, `null` leaves the field as it is, anything else is a type error. -/
def decodeString (cur : String) : JSON → Option String
  | .string s => some s
  | .null => some cur
  | _ => none

/-- Whether a JSON value decodes into a `struct{}`: an object (all of its keys
are unknown and skipped) or `null`. -/
def decodesToEmptyStruct : JSON → Bool
  | .object _ => true
  | .null => true
  | _ => false

/-- Decoding a JSON value into the field `Commits []struct{}`: `null` gives the
nil slice, an array gives a slice of its length. -/
def decodeCommits : JSON → Option (Slice Unit)
  | .null => some none
  | .array elems =>
    if elems.all decodesToEmptyStruct then some (some (elems.map fun _ => ())) else none
  | _ => none

/-- One member of a `repo` object. -/
def decodeRepoMember (repo : Repo) (m : String × JSON) : Option Repo :=
  if fieldMatches "name" m.1 then
    (decodeString repo.Name m.2).map fun s => { repo with Name := s }
  else some repo

/-- Decoding a JSON value into the field `Repo`. -/
def decodeRepo (cur : Repo) : JSON → Option Repo
  | .object members => members.foldlM decodeRepoMember cur
  | .null => some cur
  | _ => none

/-- One member of a `payload` object. -/
def decodePayloadMember (payload : Payload) (m : String × JSON) : Option Payload :=
  if fieldMatches "action" m.1 then
    (decodeString payload.Action m.2).map fun s => { payload with Action := s }
  else if fieldMatches "commits" m.1 then
    (decodeCommits m.2).map fun c => { payload with Commits := c }
  else some payload

/-- Decoding a JSON value into the field `Payload`. -/
def decodePayload (cur : Payload) : JSON → Option Payload
  | .object members => members.foldlM decodePayloadMember cur
  | .null => some cur
  | _ => none

/-- One member of an event object: a key that selects no field is skipped
together with its value. -/
def decodeEventMember (event : Event) (m : String × JSON) : Option Event :=
  if fieldMatches "type" m.1 then
    (decodeString event.Type_ m.2).map fun s => { event with Type_ := s }
  else if fieldMatches "repo" m.1 then
    (decodeRepo event.Repo m.2).map fun r => { event with Repo := r }
  else if fieldMatches "payload" m.1 then
    (decodePayload event.Payload m.2).map fun p => { event with Payload := p }
  else some event

/-- Decoding a JSON value into an `Event` holding `cur`. -/
def decodeEvent (cur : Event) : JSON → Option Event
  | .object members => members.foldlM decodeEventMember cur
  | .null => some cur
  | _ => none

/-- The zero value of `Event`. -/
def Event.zero : Event :=
  { Type_ := "", Repo := { Name := "" }, Payload := { Action := "", Commits := none } }

/-- Decoding the elements of a JSON array into fresh `Event` values, in
order. -/
def decodeElems : List JSON → Option (List Event)
  | [] => some []
  | j :: rest =>
    match decodeEvent Event.zero j with
    | none => none
    | some e =>
      match decodeElems rest with
      | none => none
      | some es => some (e :: es)

/-- The call `json.NewDecoder(resp.Body).Decode(&events)` with `events` nil:
`none` when `Decode` returns an error (the stream is malformed, or a value
has the wrong JSON type for its Go destination). -/
def decodeEvents : Body → Option (Slice Event)
  | .malformed => none
  | .value .null => some none
  | .value (.array elems) => (decodeElems elems).map some
  | .value _ => none

/-- What the program takes from its surroundings. -/
structure Env where
  /-- The value of `os.Getenv("GITHUB_TOKEN")`, empty when unset. -/
  GITHUB_TOKEN : String
  /-- The call `client.Do(req)`: an error (by its text) or a response. -/
  Do : Request → Except String HttpResponse
  /-- The text of the error `Decode` returns on a body it rejects. -/
  decodeErrorText : Body → String
  /-- The JSON string literal encoding/json writes for a Go string. -/
  quote : String → String

/-- How a Go call ends: it returns, or it panics. -/
inductive Exec (α : Type) where
  | panicked
  | returned (a : α)
  deriving DecidableEq

/-- The function `fetchGithubActivity` (lines 32-83). The first component is
the list of requests handed to `client.Do`; the second is the returned pair
`([]Activity, error)`, an absent error being `nil`.

When `http.NewRequest` fails, `req` is nil (its error is discarded at line
35) and the function panics on the nil pointer, in `req.Header.Add` or in
`client.Do`, before anything is sent. -/
def fetchGithubActivity (env : Env) (username eventType : String) :
    List Request × Exec (Slice Activity × Option String) :=
  let url := "https://api.github.com/users/" ++ username ++ "/events"
  match NewRequest "GET" url with
  | none => ([], .panicked)
  | some req =>
    let req :=
      if env.GITHUB_TOKEN ≠ "" then req.addHeader "Authorization" ("token " ++ env.GITHUB_TOKEN)
      else req
    match env.Do req with
    | .error err => ([req], .returned (none, some ("failed to fetch data: " ++ err)))
    | .ok resp =>
      if resp.StatusCode ≠ 200 then
        ([req], .returned (none, some ("API returned status code " ++ toString resp.StatusCode)))
      else
        match decodeEvents resp.Body with
        | none =>
          ([req], .returned (none, some ("failed to parse JSON: " ++ env.decodeErrorText resp.Body)))
        | some events => ([req], .returned (some (translate eventType events), none))

/-! ## The handler (main.go lines 85-102) -/

/-- A recording `http.ResponseWriter`: the header map, the status code once
written, and the body bytes. -/
structure ResponseWriter where
  Header : List (String × String)
  Code : Option Nat
  Body : String
  deriving DecidableEq

/-- A fresh response writer. -/
def ResponseWriter.fresh : ResponseWriter :=
  { Header := [], Code := none, Body := "" }

/-- `Header().Set`: replaces the values under the key. -/
def ResponseWriter.setHeader (w : ResponseWriter) (key value : String) : ResponseWriter :=
  { w with Header := w.Header.filter (fun kv => kv.1 != key) ++ [(key, value)] }

/-- `WriteHeader`: fixes the status code, once. -/
def ResponseWriter.WriteHeader (w : ResponseWriter) (code : Nat) : ResponseWriter :=
  match w.Code with
  | none => { w with Code := some code }
  | some _ => w

/-- `Write`: an implicit `WriteHeader(200)` when no status was written, then
the bytes. -/
def ResponseWriter.Write (w : ResponseWriter) (data : String) : ResponseWriter :=
  let w := w.WriteHeader 200
  { w with Body := w.Body ++ data }

/-- `http.Error`: plain-text headers, the status code, then the message
written with `fmt.Fprintln`, that is, followed by a newline. (The header
deletions of recent library versions do nothing on the header map of a fresh
writer, the only one the handler passes.) -/
def httpError (w : ResponseWriter) (error : String) (code : Nat) : ResponseWriter :=
  let w := w.setHeader "Content-Type" "text/plain; charset=utf-8"
  let w := w.setHeader "X-Content-Type-Options" "nosniff"
  let w := w.WriteHeader code
  w.Write (error ++ "\n")

/-- The JSON object encoding/json writes for an `Activity`. -/
def encodeActivity (quote : String → String) (a : Activity) : String :=
  "\x7b\"type\":" ++ quote a.Type_ ++ ",\"message\":" ++ quote a.Message ++
    ",\"repo_name\":" ++ quote a.RepoName ++ "\x7d"

/-- The JSON encoding/json writes for a `[]Activity`: `null` for the nil
slice, otherwise an array. -/
def encodeActivities (quote : String → String) : Slice Activity → String
  | none => "null"
  | some l => "[" ++ ",".intercalate (l.map (encodeActivity quote)) ++ "]"

/-- `json.NewEncoder(w).Encode(v)` for a `Response`: the JSON text followed
by a newline. -/
def encodeResponse (quote : String → String) (v : Response) : String :=
  "\x7b\"activities\":" ++ encodeActivities quote v.Activities ++ "\x7d" ++ "\n"

/-- `url.Values.Get`: the first value under the key, or the empty string. -/
def queryGet (query : String → List String) (key : String) : String :=
  match query key with
  | [] => ""
  | v :: _ => v

/-- The function `handleActivity` (lines 85-102), on the parsed query of the
inbound request and a fresh response writer. The first component is the
list of outbound requests made. -/
def handleActivity (env : Env) (query : String → List String) :
    List Request × Exec ResponseWriter :=
  let w := ResponseWriter.fresh
  let username := queryGet query "username"
  let eventType := queryGet query "type"
  if username = "" then
    ([], .returned (httpError w "username parameter is required" 400))
  else
    match fetchGithubActivity env username eventType with
    | (calls, .panicked) => (calls, .panicked)
    | (calls, .returned (_, some err)) => (calls, .returned (httpError w err 500))
    | (calls, .returned (activities, none)) =>
      let w := w.setHeader "Content-Type" "application/json"
      (calls, .returned (w.Write (encodeResponse env.quote { Activities := activities })))

/-! ## Sample inputs -/

/-- An environment whose client answers every request with `reply`. -/
def sampleEnv (token : String) (reply : Except String HttpResponse) : Env :=
  { GITHUB_TOKEN := token
    Do := fun _ => reply
    decodeErrorText := fun _ => "unexpected end of JSON input"
    quote := fun s => "\"" ++ s ++ "\"" }

/-- A push event with three commits. -/
def samplePush : Event :=
  { Type_ := "PushEvent", Repo := { Name := "octo/repo" },
    Payload := { Action := "", Commits := some [(), (), ()] } }

/-- An issues event with action `opened`. -/
def sampleIssue : Event :=
  { Type_ := "IssuesEvent", Repo := { Name := "octo/bugs" },
    Payload := { Action := "opened", Commits := none } }

/-- A watch event. -/
def sampleWatch : Event :=
  { Type_ := "WatchEvent", Repo := { Name := "octo/star" },
    Payload := { Action := "started", Commits := none } }

/-- A fork event, a type the switch does not name. -/
def sampleFork : Event :=
  { Type_ := "ForkEvent", Repo := { Name := "octo/fork" },
    Payload := { Action := "", Commits := none } }

/-- A decoded slice: push, issues, push. -/
def sampleEvents : Slice Event :=
  some [samplePush, sampleIssue, samplePush]

/-- A parsed inbound query with a `username` and a `type` parameter. -/
def sampleQuery (username eventType : String) : String → List String :=
  fun key => if key = "username" then [username] else if key = "type" then [eventType] else []

/-- A parsed inbound query without parameters. -/
def emptyQuery : String → List String :=
  fun _ => []

/-- An upstream that answers 404 with a well-formed event array. -/
def env404 : Env :=
  sampleEnv "" (.ok ⟨404, .value (.array [.object [("type", .string "PushEvent")]])⟩)

/-- An upstream that answers 200 with the body `[]`. -/
def envEmptyArray : Env :=
  sampleEnv "" (.ok ⟨200, .value (.array [])⟩)

/-- An upstream that answers 200 with a body holding one event object
without any member. -/
def envBareObject : Env :=
  sampleEnv "" (.ok ⟨200, .value (.array [.object []])⟩)

/-- An upstream that answers 200 with one push event carrying an unknown
member `id` and no `repo` member; a token is configured. -/
def envPush : Env :=
  sampleEnv "s3cr3t" (.ok ⟨200,
    .value (.array [.object [("id", .string "1"), ("type", .string "PushEvent"),
      ("payload", .object [("commits", .array [.object [], .object []])])]])⟩)

/-- The request `fetchGithubActivity` hands to `client.Do` when
`http.NewRequest` succeeds (lines 33-40). -/
def outboundRequest (env : Env) (username : String) : Request :=
  { Method := "GET"
    URL := "https://api.github.com/users/" ++ username ++ "/events"
    Header := if env.GITHUB_TOKEN ≠ "" then [("Authorization", "token " ++ env.GITHUB_TOKEN)]
      else [] }

/-! ## The translation loop as a filter followed by a map -/

/-- The `Activity` one loop iteration appends for an event it keeps. -/
def activityOf (event : Event) : Activity :=
  setMessage event { Type_ := event.Type_, RepoName := event.Repo.Name, Message := "" }

/-- Whether the loop keeps an event (the negation of the guard at line 59). -/
def kept (eventType : String) (event : Event) : Bool :=
  decide (eventType = "") || decide (event.Type_ = eventType)

theorem setMessage_Type (event : Event) (a : Activity) :
    (setMessage event a).Type_ = a.Type_ := by
  unfold setMessage
  split <;> rfl

theorem setMessage_RepoName (event : Event) (a : Activity) :
    (setMessage event a).RepoName = a.RepoName := by
  unfold setMessage
  split <;> rfl

theorem activityOf_Type (event : Event) : (activityOf event).Type_ = event.Type_ := by
  simp [activityOf, setMessage_Type]

theorem activityOf_RepoName (event : Event) :
    (activityOf event).RepoName = event.Repo.Name := by
  simp [activityOf, setMessage_RepoName]

theorem rangeLoop_eq (eventType : String) (events : List Event) (acc : List Activity) :
    rangeLoop eventType events acc
      = acc ++ (events.filter (kept eventType)).map activityOf := by
  induction events generalizing acc with
  | nil => simp [rangeLoop]
  | cons e rest ih =>
    unfold rangeLoop
    by_cases h : eventType ≠ "" ∧ e.Type_ ≠ eventType
    · have hk : kept eventType e = false := by
        simp [kept, h.1, h.2]
      simp [h, hk, ih]
    · have hk : kept eventType e = true := by
        simp only [kept, Bool.or_eq_true, decide_eq_true_eq]
        by_cases h1 : eventType = ""
        · exact Or.inl h1
        · right
          by_contra h2
          exact h ⟨h1, h2⟩
      rw [if_neg h]
      simp [hk, ih, activityOf]

theorem translate_eq (eventType : String) (events : Slice Event) :
    translate eventType events = (events.elems.filter (kept eventType)).map activityOf := by
  simp [translate, rangeLoop_eq]

theorem kept_empty (event : Event) : kept "" event = true := by
  simp [kept]

theorem kept_of_ne {f : String} (hf : f ≠ "") (event : Event) :
    kept f event = decide (event.Type_ = f) := by
  simp [kept, hf]

/-! ## The paths through `fetchGithubActivity` -/

theorem newRequest_of_parses {url : String} (h : urlParseFails url = false) :
    NewRequest "GET" url = some { Method := "GET", URL := url, Header := [] } := by
  simp [NewRequest, h]

theorem newRequest_of_fails {url : String} (h : urlParseFails url = true) :
    NewRequest "GET" url = none := by
  simp [NewRequest, h]

theorem fetch_panics (env : Env) (username eventType : String)
    (h : urlParseFails ("https://api.github.com/users/" ++ username ++ "/events") = true) :
    fetchGithubActivity env username eventType = ([], .panicked) := by
  simp only [fetchGithubActivity, newRequest_of_fails h]

theorem fetch_of_parses (env : Env) (username eventType : String)
    (h : urlParseFails ("https://api.github.com/users/" ++ username ++ "/events") = false) :
    fetchGithubActivity env username eventType =
      match env.Do (outboundRequest env username) with
      | .error err =>
        ([outboundRequest env username],
          .returned (none, some ("failed to fetch data: " ++ err)))
      | .ok resp =>
        if resp.StatusCode ≠ 200 then
          ([outboundRequest env username],
            .returned (none, some ("API returned status code " ++ toString resp.StatusCode)))
        else
          match decodeEvents resp.Body with
          | none =>
            ([outboundRequest env username],
              .returned (none, some ("failed to parse JSON: " ++ env.decodeErrorText resp.Body)))
          | some events =>
            ([outboundRequest env username],
              .returned (some (translate eventType events), none)) := by
  have hreq : (if env.GITHUB_TOKEN ≠ "" then
        Request.addHeader ⟨"GET", "https://api.github.com/users/" ++ username ++ "/events", []⟩
          "Authorization" ("token " ++ env.GITHUB_TOKEN)
      else ⟨"GET", "https://api.github.com/users/" ++ username ++ "/events", []⟩)
      = outboundRequest env username := by
    unfold outboundRequest Request.addHeader
    split <;> simp
  simp only [fetchGithubActivity, newRequest_of_parses h, hreq]

theorem fetch_calls (env : Env) (username eventType : String) (req : Request)
    (h : (fetchGithubActivity env username eventType).1 = [req]) :
    urlParseFails ("https://api.github.com/users/" ++ username ++ "/events") = false ∧
      req = outboundRequest env username := by
  cases hp : urlParseFails ("https://api.github.com/users/" ++ username ++ "/events") with
  | true =>
    rw [fetch_panics env username eventType hp] at h
    simp at h
  | false =>
    refine ⟨rfl, ?_⟩
    rw [fetch_of_parses env username eventType hp] at h
    cases hd : env.Do (outboundRequest env username) with
    | error err =>
      rw [hd] at h
      simpa using h.symm
    | ok resp =>
      rw [hd] at h
      dsimp only at h
      split at h
      · simpa using h.symm
      · split at h <;> simpa using h.symm

/-! ## The decoder: absent members, unknown members -/

theorem foldlM_isSome_congr {α β : Type} (f : β → α → Option β)
    (hf : ∀ b b' a, (f b a).isSome = (f b' a).isSome) (l : List α) (b b' : β) :
    (l.foldlM f b).isSome = (l.foldlM f b').isSome := by
  induction l generalizing b b' with
  | nil => simp
  | cons a l ih =>
    simp only [List.foldlM_cons]
    have h := hf b b' a
    cases h1 : f b a with
    | none =>
      cases h2 : f b' a with
      | none => rfl
      | some c' => rw [h1, h2] at h; simp at h
    | some c =>
      cases h2 : f b' a with
      | none => rw [h1, h2] at h; simp at h
      | some c' => exact ih c c'

theorem foldlM_remove {α β : Type} (f : β → α → Option β)
    (hf : ∀ b b' a, (f b a).isSome = (f b' a).isSome) (l1 l2 : List α) (a : α) (b e : β)
    (h : (l1 ++ a :: l2).foldlM f b = some e) :
    ((l1 ++ l2).foldlM f b).isSome = true := by
  rw [List.foldlM_append] at h
  rw [List.foldlM_append]
  cases h1 : l1.foldlM f b with
  | none => rw [h1] at h; simp at h
  | some c =>
    rw [h1] at h
    simp only [Option.bind_eq_bind, Option.some_bind, List.foldlM_cons] at h ⊢
    cases h2 : f c a with
    | none => rw [h2] at h; simp at h
    | some d =>
      rw [h2] at h
      simp only [Option.some_bind] at h
      rw [foldlM_isSome_congr f hf l2 c d, h]
      rfl

theorem foldlM_skip {α β : Type} (f : β → α → Option β) (l1 l2 : List α) (a : α) (b : β)
    (h : ∀ c, f c a = some c) :
    (l1 ++ a :: l2).foldlM f b = (l1 ++ l2).foldlM f b := by
  rw [List.foldlM_append, List.foldlM_append]
  cases l1.foldlM f b with
  | none => rfl
  | some c => simp [h c]

theorem foldlM_preserves {α β γ : Type} (f : β → α → Option β) (proj : β → γ) (l : List α)
    (h : ∀ a ∈ l, ∀ b c, f b a = some c → proj c = proj b) (b e : β)
    (he : l.foldlM f b = some e) : proj e = proj b := by
  induction l generalizing b with
  | nil =>
    have hbe : b = e := Option.some.inj he
    rw [hbe]
  | cons a l ih =>
    simp only [List.foldlM_cons, Option.bind_eq_bind] at he
    cases h1 : f b a with
    | none => rw [h1] at he; simp at he
    | some c =>
      rw [h1] at he
      simp only [Option.some_bind] at he
      rw [ih (fun a' ha' => h a' (List.mem_cons_of_mem a ha')) c he]
      exact h a (List.mem_cons_self a l) b c h1

theorem decodeString_isSome (c c' : String) (j : JSON) :
    (decodeString c j).isSome = (decodeString c' j).isSome := by
  cases j <;> rfl

theorem decodeRepoMember_isSome (r r' : Repo) (m : String × JSON) :
    (decodeRepoMember r m).isSome = (decodeRepoMember r' m).isSome := by
  unfold decodeRepoMember
  split
  · simp only [Option.isSome_map']
    exact decodeString_isSome _ _ _
  · rfl

theorem decodeRepo_isSome (r r' : Repo) (j : JSON) :
    (decodeRepo r j).isSome = (decodeRepo r' j).isSome := by
  cases j with
  | object members => exact foldlM_isSome_congr _ decodeRepoMember_isSome members r r'
  | _ => rfl

theorem decodePayloadMember_isSome (p p' : Payload) (m : String × JSON) :
    (decodePayloadMember p m).isSome = (decodePayloadMember p' m).isSome := by
  unfold decodePayloadMember
  split
  · simp only [Option.isSome_map']
    exact decodeString_isSome _ _ _
  · split
    · simp only [Option.isSome_map']
    · rfl

theorem decodePayload_isSome (p p' : Payload) (j : JSON) :
    (decodePayload p j).isSome = (decodePayload p' j).isSome := by
  cases j with
  | object members => exact foldlM_isSome_congr _ decodePayloadMember_isSome members p p'
  | _ => rfl

theorem decodeEventMember_isSome (e e' : Event) (m : String × JSON) :
    (decodeEventMember e m).isSome = (decodeEventMember e' m).isSome := by
  unfold decodeEventMember
  split
  · simp only [Option.isSome_map']
    exact decodeString_isSome _ _ _
  · split
    · simp only [Option.isSome_map']
      exact decodeRepo_isSome _ _ _
    · split
      · simp only [Option.isSome_map']
        exact decodePayload_isSome _ _ _
      · rfl

theorem decodeElems_append (pre post : List JSON) (j : JSON) :
    (decodeElems (pre ++ j :: post)).isSome
      = ((decodeElems pre).isSome && (decodeEvent Event.zero j).isSome
          && (decodeElems post).isSome) := by
  induction pre with
  | nil =>
    simp only [List.nil_append, decodeElems]
    cases decodeEvent Event.zero j with
    | none => rfl
    | some e =>
      cases decodeElems post with
      | none => rfl
      | some es => rfl
  | cons x pre ih =>
    simp only [List.cons_append, decodeElems]
    cases decodeEvent Event.zero x with
    | none => rfl
    | some e =>
      cases hpre : decodeElems pre with
      | none =>
        rw [hpre] at ih
        cases hall : decodeElems (pre ++ j :: post) with
        | none => rfl
        | some es => rw [hall] at ih; simp at ih
      | some es =>
        rw [hpre] at ih
        cases hall : decodeElems (pre ++ j :: post) with
        | none => rw [hall] at ih; simpa using ih
        | some es' => rw [hall] at ih; simpa using ih

theorem decodeEvent_remove (cur e : Event) (ms1 ms2 : List (String × JSON)) (m : String × JSON)
    (h : decodeEvent cur (.object (ms1 ++ m :: ms2)) = some e) :
    (decodeEvent cur (.object (ms1 ++ ms2))).isSome = true :=
  foldlM_remove decodeEventMember decodeEventMember_isSome ms1 ms2 m cur e h

theorem decodeEventMember_Type (b c : Event) (m : String × JSON)
    (hm : fieldMatches "type" m.1 = false) (h : decodeEventMember b m = some c) :
    c.Type_ = b.Type_ := by
  unfold decodeEventMember at h
  rw [if_neg (by simp [hm])] at h
  split at h
  · obtain ⟨r, -, rfl⟩ := Option.map_eq_some'.mp h
    rfl
  · split at h
    · obtain ⟨p, -, rfl⟩ := Option.map_eq_some'.mp h
      rfl
    · rw [← Option.some.inj h]

theorem decodeEventMember_Repo (b c : Event) (m : String × JSON)
    (hm : fieldMatches "repo" m.1 = false) (h : decodeEventMember b m = some c) :
    c.Repo = b.Repo := by
  unfold decodeEventMember at h
  split at h
  · obtain ⟨r, -, rfl⟩ := Option.map_eq_some'.mp h
    rfl
  · rw [if_neg (by simp [hm])] at h
    split at h
    · obtain ⟨p, -, rfl⟩ := Option.map_eq_some'.mp h
      rfl
    · rw [← Option.some.inj h]

theorem decodeEventMember_Payload (b c : Event) (m : String × JSON)
    (hm : fieldMatches "payload" m.1 = false) (h : decodeEventMember b m = some c) :
    c.Payload = b.Payload := by
  unfold decodeEventMember at h
  split at h
  · obtain ⟨r, -, rfl⟩ := Option.map_eq_some'.mp h
    rfl
  · split at h
    · obtain ⟨p, -, rfl⟩ := Option.map_eq_some'.mp h
      rfl
    · rw [if_neg (by simp [hm])] at h
      rw [← Option.some.inj h]

theorem decodeRepoMember_Name (b c : Repo) (m : String × JSON)
    (hm : fieldMatches "name" m.1 = false) (h : decodeRepoMember b m = some c) :
    c = b := by
  unfold decodeRepoMember at h
  rw [if_neg (by simp [hm])] at h
  exact (Option.some.inj h).symm

/-! ## The paths through `handleActivity` -/

theorem httpError_fresh (msg : String) (code : Nat) :
    httpError ResponseWriter.fresh msg code
      = ⟨[("Content-Type", "text/plain; charset=utf-8"), ("X-Content-Type-Options", "nosniff")],
          some code, msg ++ "\n"⟩ := by
  simp [httpError, ResponseWriter.fresh, ResponseWriter.setHeader, ResponseWriter.WriteHeader,
    ResponseWriter.Write]

theorem handle_of_no_username (env : Env) (query : String → List String)
    (h : queryGet query "username" = "") :
    handleActivity env query
      = ([], .returned (httpError ResponseWriter.fresh "username parameter is required" 400)) := by
  simp [handleActivity, h]

theorem handle_of_fetch_error (env : Env) (query : String → List String)
    (calls : List Request) (acts : Slice Activity) (msg : String)
    (hu : queryGet query "username" ≠ "")
    (hf : fetchGithubActivity env (queryGet query "username") (queryGet query "type")
      = (calls, .returned (acts, some msg))) :
    handleActivity env query = (calls, .returned (httpError ResponseWriter.fresh msg 500)) := by
  simp [handleActivity, hu, hf]

theorem handle_of_fetch_ok (env : Env) (query : String → List String)
    (calls : List Request) (acts : Slice Activity)
    (hu : queryGet query "username" ≠ "")
    (hf : fetchGithubActivity env (queryGet query "username") (queryGet query "type")
      = (calls, .returned (acts, none))) :
    handleActivity env query
      = (calls, .returned ⟨[("Content-Type", "application/json")], some 200,
          encodeResponse env.quote ⟨acts⟩⟩) := by
  simp [handleActivity, hu, hf, ResponseWriter.fresh, ResponseWriter.setHeader,
    ResponseWriter.WriteHeader, ResponseWriter.Write]

/-! ## Claims about the translation loop -/

/-- C1: with the empty filter, the translation loop returns as many
activities as there are decoded events, and the activity at each index has
the type and the repository name of the event at that index. -/
theorem C1_unfiltered_length_and_order (events : Slice Event) :
    (translate "" events).length = events.len ∧
      ∀ i : Nat,
        ((translate "" events)[i]?).map (fun a => (a.Type_, a.RepoName))
          = (events.elems[i]?).map (fun e => (e.Type_, e.Repo.Name)) := by
  have hall : events.elems.filter (kept "") = events.elems := by
    rw [List.filter_eq_self]
    intro e _
    exact kept_empty e
  refine ⟨?_, ?_⟩
  · rw [translate_eq, hall, List.length_map]
    cases events <;> rfl
  · intro i
    rw [translate_eq, hall, List.getElem?_map]
    cases events.elems[i]? with
    | none => rfl
    | some e => simp [activityOf_Type, activityOf_RepoName]

/-- C2: with a non-empty filter `f`, every returned activity has type `f`,
the number of activities is the number of decoded events of type `f`, and
the result is what the unfiltered loop gives on just those events, in the
upstream order. -/
theorem C2_filtered_exact_type (events : Slice Event) (f : String) (hf : f ≠ "") :
    (∀ a ∈ translate f events, a.Type_ = f) ∧
      (translate f events).length = (events.elems.filter (fun e => e.Type_ = f)).length ∧
      translate f events = translate "" (some (events.elems.filter (fun e => e.Type_ = f))) ∧
      (translate f events).map (fun a => (a.Type_, a.RepoName))
        = (events.elems.filter (fun e => e.Type_ = f)).map (fun e => (e.Type_, e.Repo.Name)) := by
  have hk : kept f = fun e => decide (e.Type_ = f) := funext (kept_of_ne hf)
  have hall : ∀ l : List Event, l.filter (kept "") = l := by
    intro l
    rw [List.filter_eq_self]
    intro e _
    exact kept_empty e
  refine ⟨?_, ?_, ?_, ?_⟩
  · intro a ha
    rw [translate_eq, hk, List.mem_map] at ha
    obtain ⟨e, he, rfl⟩ := ha
    rw [activityOf_Type]
    simpa using (List.mem_filter.mp he).2
  · rw [translate_eq, hk, List.length_map]
  · rw [translate_eq, translate_eq, hk]
    simp only [Slice.elems]
    rw [hall]
  · rw [translate_eq, hk, List.map_map]
    apply List.map_congr_left
    intro e _
    simp [activityOf_Type, activityOf_RepoName]

/-- C2 at a concrete input: filtering push, issues, push by `PushEvent`. -/
theorem C2_filtered_exact_type_witness :
    "PushEvent" ≠ "" ∧
      ((∀ a ∈ translate "PushEvent" sampleEvents, a.Type_ = "PushEvent") ∧
        (translate "PushEvent" sampleEvents).length
          = (sampleEvents.elems.filter (fun e => e.Type_ = "PushEvent")).length ∧
        translate "PushEvent" sampleEvents
          = translate "" (some (sampleEvents.elems.filter (fun e => e.Type_ = "PushEvent"))) ∧
        (translate "PushEvent" sampleEvents).map (fun a => (a.Type_, a.RepoName))
          = (sampleEvents.elems.filter (fun e => e.Type_ = "PushEvent")).map
              (fun e => (e.Type_, e.Repo.Name))) :=
  ⟨by decide, C2_filtered_exact_type sampleEvents "PushEvent" (by decide)⟩

/-- C3: every event the loop does not skip contributes, at its place, one
activity whose message is `Pushed N commits` (N the decimal number of
commits) for a `PushEvent`, the action followed by ` an issue` for an
`IssuesEvent`, `Starred repository` for a `WatchEvent`, and the type string
itself for any other type; three commits give `Pushed 3 commits`, the action
`opened` gives `opened an issue`, and `ForkEvent` gives `ForkEvent`. -/
theorem C3_message_synthesis :
    (∀ (f : String) (pre post : List Event) (e : Event), (f = "" ∨ e.Type_ = f) →
      ∃ a : Activity,
        translate f (some (pre ++ e :: post))
          = translate f (some pre) ++ a :: translate f (some post) ∧
        a.Type_ = e.Type_ ∧ a.RepoName = e.Repo.Name ∧
        (e.Type_ = "PushEvent" →
          a.Message = "Pushed " ++ toString e.Payload.Commits.len ++ " commits") ∧
        (e.Type_ = "IssuesEvent" → a.Message = e.Payload.Action ++ " an issue") ∧
        (e.Type_ = "WatchEvent" → a.Message = "Starred repository") ∧
        (e.Type_ ≠ "PushEvent" → e.Type_ ≠ "IssuesEvent" → e.Type_ ≠ "WatchEvent" →
          a.Message = e.Type_)) ∧
      translate "" (some [samplePush, sampleIssue, sampleWatch, sampleFork])
        = [ { Type_ := "PushEvent", Message := "Pushed 3 commits", RepoName := "octo/repo" },
            { Type_ := "IssuesEvent", Message := "opened an issue", RepoName := "octo/bugs" },
            { Type_ := "WatchEvent", Message := "Starred repository", RepoName := "octo/star" },
            { Type_ := "ForkEvent", Message := "ForkEvent", RepoName := "octo/fork" } ] := by
  refine ⟨?_, by decide⟩
  intro f pre post e hkeep
  have hk : kept f e = true := by
    simp only [kept, Bool.or_eq_true, decide_eq_true_eq]
    exact hkeep
  refine ⟨activityOf e, ?_, activityOf_Type e, activityOf_RepoName e, ?_, ?_, ?_, ?_⟩
  · simp [translate_eq, Slice.elems, List.filter_append, List.filter_cons, hk]
  · intro h
    simp [activityOf, setMessage, h]
  · intro h
    simp [activityOf, setMessage, h]
  · intro h
    simp [activityOf, setMessage, h]
  · intro h1 h2 h3
    unfold activityOf setMessage
    split
    · next h => exact absurd h h1
    · next h => exact absurd h h2
    · next h => exact absurd h h3
    · rfl

/-- C3 at a concrete input: a push event with three commits between an
issues event and a watch event, under the empty filter. -/
theorem C3_message_synthesis_witness :
    (("" : String) = "" ∨ samplePush.Type_ = "") ∧
      ∃ a : Activity,
        translate "" (some ([sampleIssue] ++ samplePush :: [sampleWatch]))
          = translate "" (some [sampleIssue]) ++ a :: translate "" (some [sampleWatch]) ∧
        a.Type_ = samplePush.Type_ ∧ a.RepoName = samplePush.Repo.Name ∧
        (samplePush.Type_ = "PushEvent" →
          a.Message = "Pushed " ++ toString samplePush.Payload.Commits.len ++ " commits") ∧
        (samplePush.Type_ = "IssuesEvent" → a.Message = samplePush.Payload.Action ++ " an issue") ∧
        (samplePush.Type_ = "WatchEvent" → a.Message = "Starred repository") ∧
        (samplePush.Type_ ≠ "PushEvent" → samplePush.Type_ ≠ "IssuesEvent" →
          samplePush.Type_ ≠ "WatchEvent" → a.Message = samplePush.Type_) :=
  ⟨Or.inl rfl, C3_message_synthesis.1 "" [sampleIssue] [sampleWatch] samplePush (Or.inl rfl)⟩

/-- C10: for a non-empty filter `f`, the loop's result is the unfiltered
result restricted to the activities of type `f`, hence a sublist of it, and
the same holds for the list `fetchGithubActivity` returns, on the same
outbound request. -/
theorem C10_filter_commutes (events : Slice Event) (f : String) (hf : f ≠ "") :
    translate f events = (translate "" events).filter (fun a => a.Type_ = f) ∧
      List.Sublist (translate f events) (translate "" events) ∧
      ∀ (env : Env) (username : String) (acts : List Activity),
        (fetchGithubActivity env username "").2 = .returned (some acts, none) →
        fetchGithubActivity env username f
          = ((fetchGithubActivity env username "").1,
              .returned (some (acts.filter (fun a => a.Type_ = f)), none)) := by
  have key : ∀ evs : Slice Event,
      translate f evs = (translate "" evs).filter (fun a => a.Type_ = f) := by
    intro evs
    have hall : evs.elems.filter (kept "") = evs.elems := by
      rw [List.filter_eq_self]
      intro e _
      exact kept_empty e
    rw [translate_eq, translate_eq, hall, List.filter_map]
    congr 1
    apply List.filter_congr
    intro e _
    simp [kept_of_ne hf, activityOf_Type]
  refine ⟨key events, ?_, ?_⟩
  · rw [key events]
    exact List.filter_sublist _
  · intro env username acts h
    cases hp : urlParseFails ("https://api.github.com/users/" ++ username ++ "/events") with
    | true =>
      rw [fetch_panics env username "" hp] at h
      simp at h
    | false =>
      rw [fetch_of_parses env username "" hp] at h
      rw [fetch_of_parses env username f hp, fetch_of_parses env username "" hp]
      cases hd : env.Do (outboundRequest env username) with
      | error err =>
        rw [hd] at h
        simp at h
      | ok resp =>
        rw [hd] at h
        dsimp only at h ⊢
        by_cases hs : resp.StatusCode ≠ 200
        · rw [if_pos hs] at h
          simp at h
        · rw [if_neg hs] at h
          rw [if_neg hs, if_neg hs]
          cases hdec : decodeEvents resp.Body with
          | none =>
            rw [hdec] at h
            simp at h
          | some evs =>
            rw [hdec] at h
            simp only [Exec.returned.injEq, Prod.mk.injEq, Option.some.injEq, and_true] at h
            simp only [key evs, h]

/-- C10 at a concrete input: push, issues, push filtered by `PushEvent`. -/
theorem C10_filter_commutes_witness :
    "PushEvent" ≠ "" ∧
      (translate "PushEvent" sampleEvents
          = (translate "" sampleEvents).filter (fun a => a.Type_ = "PushEvent") ∧
        List.Sublist (translate "PushEvent" sampleEvents) (translate "" sampleEvents) ∧
        ∀ (env : Env) (username : String) (acts : List Activity),
          (fetchGithubActivity env username "").2 = .returned (some acts, none) →
          fetchGithubActivity env username "PushEvent"
            = ((fetchGithubActivity env username "").1,
                .returned (some (acts.filter (fun a => a.Type_ = "PushEvent")), none))) :=
  ⟨by decide, C10_filter_commutes sampleEvents "PushEvent" (by decide)⟩

/-! ## Claims about the upstream exchange -/

/-- C5: when the request `fetchGithubActivity` sent is answered with a
status code other than 200, the function returns the nil slice and the error
`API returned status code <code>`, whatever the response body is. -/
theorem C5_non200_is_error (env : Env) (username eventType : String) (req : Request)
    (resp : HttpResponse)
    (hcall : (fetchGithubActivity env username eventType).1 = [req])
    (hdo : env.Do req = .ok resp) (hs : resp.StatusCode ≠ 200) :
    (fetchGithubActivity env username eventType).2
      = .returned (none, some ("API returned status code " ++ toString resp.StatusCode)) := by
  obtain ⟨hp, rfl⟩ := fetch_calls env username eventType req hcall
  rw [fetch_of_parses env username eventType hp, hdo]
  simp [hs]

/-- C5 at a concrete input: status 404 with a well-formed event array as
body. -/
theorem C5_non200_is_error_witness :
    (fetchGithubActivity env404 "octocat" "").1
        = [⟨"GET", "https://api.github.com/users/octocat/events", []⟩] ∧
      env404.Do ⟨"GET", "https://api.github.com/users/octocat/events", []⟩
        = .ok ⟨404, .value (.array [.object [("type", .string "PushEvent")]])⟩ ∧
      (404 : Int) ≠ 200 ∧
      (fetchGithubActivity env404 "octocat" "").2
        = .returned (none, some ("API returned status code " ++ toString (404 : Int))) :=
  ⟨rfl, rfl, by decide,
    C5_non200_is_error env404 "octocat" ""
      ⟨"GET", "https://api.github.com/users/octocat/events", []⟩
      ⟨404, .value (.array [.object [("type", .string "PushEvent")]])⟩ rfl rfl (by decide)⟩

/-- C9, as stated, fails: for the username made of `a`, a line feed and `b`
(the query `username=a%0Ab`), `http.NewRequest` rejects the URL, no request
is handed to the client, and the call panics. -/
theorem C9_counterexample :
    ¬ ∀ (env : Env) (username eventType : String),
        ∃ req : Request, (fetchGithubActivity env username eventType).1 = [req] ∧
          req.Method = "GET" ∧
          req.URL = "https://api.github.com/users/" ++ username ++ "/events" ∧
          (env.GITHUB_TOKEN ≠ "" →
            req.Header = [("Authorization", "token " ++ env.GITHUB_TOKEN)]) ∧
          (env.GITHUB_TOKEN = "" → req.Header = []) := by
  intro h
  obtain ⟨req, hreq, -⟩ := h (sampleEnv "" (.error "unreachable")) "a\nb" ""
  have hp : fetchGithubActivity (sampleEnv "" (.error "unreachable")) "a\nb" ""
      = ([], .panicked) := by decide
  rw [hp] at hreq
  simp at hreq

/-- C9, amended: for every token value and every username whose URL
`http.NewRequest` accepts, exactly one request is handed to the client: a
GET to `https://api.github.com/users/<username>/events`, the username
embedded as it is, carrying the single header `Authorization: token <value>`
when the token is non-empty and no header when it is empty. -/
theorem C9_outbound_request (env : Env) (username eventType : String)
    (hurl : NewRequest "GET" ("https://api.github.com/users/" ++ username ++ "/events") ≠ none) :
    ∃ req : Request, (fetchGithubActivity env username eventType).1 = [req] ∧
      req.Method = "GET" ∧
      req.URL = "https://api.github.com/users/" ++ username ++ "/events" ∧
      (env.GITHUB_TOKEN ≠ "" →
        req.Header = [("Authorization", "token " ++ env.GITHUB_TOKEN)]) ∧
      (env.GITHUB_TOKEN = "" → req.Header = []) := by
  have hp : urlParseFails ("https://api.github.com/users/" ++ username ++ "/events") = false := by
    cases hq : urlParseFails ("https://api.github.com/users/" ++ username ++ "/events") with
    | true => exact absurd (newRequest_of_fails hq) hurl
    | false => rfl
  refine ⟨outboundRequest env username, ?_, rfl, rfl, ?_, ?_⟩
  · rw [fetch_of_parses env username eventType hp]
    cases env.Do (outboundRequest env username) with
    | error err => rfl
    | ok resp =>
      dsimp only
      split
      · rfl
      · split <;> rfl
  · intro ht
    simp [outboundRequest, ht]
  · intro ht
    simp [outboundRequest, ht]

/-- C9 at a concrete input: the username `octocat` with the token `s3cr3t`. -/
theorem C9_outbound_request_witness :
    NewRequest "GET" ("https://api.github.com/users/" ++ "octocat" ++ "/events") ≠ none ∧
      ∃ req : Request, (fetchGithubActivity envPush "octocat" "").1 = [req] ∧
        req.Method = "GET" ∧
        req.URL = "https://api.github.com/users/" ++ "octocat" ++ "/events" ∧
        (envPush.GITHUB_TOKEN ≠ "" →
          req.Header = [("Authorization", "token " ++ envPush.GITHUB_TOKEN)]) ∧
        (envPush.GITHUB_TOKEN = "" → req.Header = []) :=
  ⟨by decide, C9_outbound_request envPush "octocat" "" (by decide)⟩

/-- C8, as stated, fails: when the upstream answers 200 with an array holding
one event object without any member, which lacks `type`, `repo` and
`payload`, the call succeeds and returns an activity whose three fields are
empty strings. -/
theorem C8_counterexample :
    ¬ ∀ (env : Env) (username eventType : String) (req : Request) (elems : List JSON)
        (ms : List (String × JSON)),
        (fetchGithubActivity env username eventType).1 = [req] →
        env.Do req = .ok ⟨200, .value (.array elems)⟩ →
        JSON.object ms ∈ elems →
        ((∀ m ∈ ms, fieldMatches "type" m.1 = false) ∨
          (∀ m ∈ ms, fieldMatches "repo" m.1 = false) ∨
          (∀ m ∈ ms, fieldMatches "payload" m.1 = false)) →
        ∃ msg, (fetchGithubActivity env username eventType).2 = .returned (none, some msg) := by
  intro h
  obtain ⟨msg, hmsg⟩ :=
    h envBareObject "octocat" "" ⟨"GET", "https://api.github.com/users/octocat/events", []⟩
      [.object []] [] rfl rfl (List.mem_singleton.mpr rfl)
      (Or.inl (fun m hm => absurd hm (List.not_mem_nil m)))
  have hr : (fetchGithubActivity envBareObject "octocat" "").2
      = .returned (some [⟨"", "", ""⟩], none) := by decide
  rw [hr] at hmsg
  simp at hmsg

/-- C8, amended: on a status-200 response, a body the decoder rejects makes
`fetchGithubActivity` return the nil slice and the error
`failed to parse JSON: ...`; an event object that lacks `type`, `repo`,
`repo.name` or `payload` is not rejected: removing a member from an event
object of a body that decodes leaves a body that decodes, the absent field
keeps its zero value (empty string, nil commits), and the activity is built
from it; a member whose key selects no field is ignored without error. -/
theorem C8_absent_fields_default :
    (∀ (env : Env) (username eventType : String) (req : Request) (resp : HttpResponse),
        (fetchGithubActivity env username eventType).1 = [req] →
        env.Do req = .ok resp → resp.StatusCode = 200 →
        (decodeEvents resp.Body = none →
          (fetchGithubActivity env username eventType).2
            = .returned (none,
                some ("failed to parse JSON: " ++ env.decodeErrorText resp.Body))) ∧
        (∀ events, decodeEvents resp.Body = some events →
          (fetchGithubActivity env username eventType).2
            = .returned (some (translate eventType events), none))) ∧
      (∀ (pre post : List JSON) (ms1 ms2 : List (String × JSON)) (m : String × JSON),
        decodeEvents (.value (.array (pre ++ .object (ms1 ++ m :: ms2) :: post))) ≠ none →
        decodeEvents (.value (.array (pre ++ .object (ms1 ++ ms2) :: post))) ≠ none) ∧
      (∀ (ms : List (String × JSON)) (e : Event),
        decodeEvent Event.zero (.object ms) = some e →
        ((∀ m ∈ ms, fieldMatches "type" m.1 = false) → e.Type_ = "") ∧
        ((∀ m ∈ ms, fieldMatches "repo" m.1 = false) → e.Repo.Name = "") ∧
        ((∀ m ∈ ms, fieldMatches "payload" m.1 = false) →
          e.Payload.Action = "" ∧ e.Payload.Commits = none)) ∧
      (∀ (ms : List (String × JSON)) (cur r : Repo),
        decodeRepo cur (.object ms) = some r →
        (∀ m ∈ ms, fieldMatches "name" m.1 = false) → r.Name = cur.Name) ∧
      (∀ (cur : Event) (ms1 ms2 : List (String × JSON)) (k : String) (v : JSON),
        fieldMatches "type" k = false → fieldMatches "repo" k = false →
        fieldMatches "payload" k = false →
        decodeEvent cur (.object (ms1 ++ (k, v) :: ms2))
          = decodeEvent cur (.object (ms1 ++ ms2))) := by
  refine ⟨?_, ?_, ?_, ?_, ?_⟩
  · intro env username eventType req resp hcall hdo hs
    obtain ⟨hp, rfl⟩ := fetch_calls env username eventType req hcall
    constructor
    · intro hd
      rw [fetch_of_parses env username eventType hp, hdo]
      simp [hs, hd]
    · intro events hd
      rw [fetch_of_parses env username eventType hp, hdo]
      simp [hs, hd]
  · intro pre post ms1 ms2 m h
    have h1 : (decodeElems (pre ++ .object (ms1 ++ m :: ms2) :: post)).isSome = true := by
      cases hd : decodeElems (pre ++ .object (ms1 ++ m :: ms2) :: post) with
      | none => simp [decodeEvents, hd] at h
      | some es => rfl
    rw [decodeElems_append, Bool.and_eq_true, Bool.and_eq_true] at h1
    obtain ⟨⟨hpre, hev⟩, hpost⟩ := h1
    obtain ⟨e, he⟩ := Option.isSome_iff_exists.mp hev
    have h2 : (decodeElems (pre ++ .object (ms1 ++ ms2) :: post)).isSome = true := by
      rw [decodeElems_append, hpre, decodeEvent_remove Event.zero e ms1 ms2 m he, hpost]
      rfl
    obtain ⟨es, hes⟩ := Option.isSome_iff_exists.mp h2
    simp [decodeEvents, hes]
  · intro ms e he
    refine ⟨?_, ?_, ?_⟩
    · intro hm
      exact foldlM_preserves decodeEventMember (fun x => x.Type_) ms
        (fun a ha b c hbc => decodeEventMember_Type b c a (hm a ha) hbc) Event.zero e he
    · intro hm
      have hrepo : e.Repo = Event.zero.Repo :=
        foldlM_preserves decodeEventMember (fun x => x.Repo) ms
          (fun a ha b c hbc => decodeEventMember_Repo b c a (hm a ha) hbc) Event.zero e he
      rw [hrepo]
      rfl
    · intro hm
      have hpay : e.Payload = Event.zero.Payload :=
        foldlM_preserves decodeEventMember (fun x => x.Payload) ms
          (fun a ha b c hbc => decodeEventMember_Payload b c a (hm a ha) hbc) Event.zero e he
      rw [hpay]
      exact ⟨rfl, rfl⟩
  · intro ms cur r hr hm
    have hrc : r = cur :=
      foldlM_preserves decodeRepoMember (fun x => x) ms
        (fun a ha b c hbc => decodeRepoMember_Name b c a (hm a ha) hbc) cur r hr
    rw [hrc]
  · intro cur ms1 ms2 k v h1 h2 h3
    apply foldlM_skip decodeEventMember ms1 ms2 (k, v) cur
    intro c
    simp [decodeEventMember, h1, h2, h3]

/-- C8 at a concrete input: the upstream answers 200 with one push event
that carries an unknown member `id` and lacks `repo`; the activity has the
empty repository name. -/
theorem C8_absent_fields_default_witness :
    (fetchGithubActivity envPush "octocat" "").1
        = [⟨"GET", "https://api.github.com/users/octocat/events",
            [("Authorization", "token s3cr3t")]⟩] ∧
      (fetchGithubActivity envPush "octocat" "").2
        = .returned (some [⟨"PushEvent", "Pushed 2 commits", ""⟩], none) :=
  ⟨rfl,
    (C8_absent_fields_default.1 envPush "octocat" ""
      ⟨"GET", "https://api.github.com/users/octocat/events", [("Authorization", "token s3cr3t")]⟩
      ⟨200, .value (.array [.object [("id", .string "1"), ("type", .string "PushEvent"),
        ("payload", .object [("commits", .array [.object [], .object []])])]])⟩
      rfl rfl rfl).2
      (some [⟨"PushEvent", ⟨""⟩, ⟨"", some [(), ()]⟩⟩]) rfl⟩

/-! ## Claims about the handler -/

/-- C4, as stated, fails: for a request without parameters the body is the
message followed by a newline, not the message alone. -/
theorem C4_counterexample :
    ¬ ∀ (env : Env) (query : String → List String),
        (query "username" = [] ∨ ∃ rest, query "username" = "" :: rest) →
        ∃ w : ResponseWriter, handleActivity env query = ([], .returned w) ∧
          w.Code = some 400 ∧ w.Body = "username parameter is required" := by
  intro h
  obtain ⟨w, hw, -, hbody⟩ := h envEmptyArray emptyQuery (Or.inl rfl)
  have hr : handleActivity envEmptyArray emptyQuery
      = ([], .returned ⟨[("Content-Type", "text/plain; charset=utf-8"),
          ("X-Content-Type-Options", "nosniff")], some 400,
          "username parameter is required\n"⟩) := by decide
  rw [hr] at hw
  simp only [Prod.mk.injEq, Exec.returned.injEq, true_and] at hw
  rw [← hw] at hbody
  revert hbody
  decide

/-- C4, amended: when the `username` parameter is absent or empty, whatever
the `type` parameter is, the handler makes no outbound call and responds
with status 400, plain-text headers, and the body
`username parameter is required` followed by a newline. -/
theorem C4_missing_username (env : Env) (query : String → List String)
    (h : query "username" = [] ∨ ∃ rest, query "username" = "" :: rest) :
    handleActivity env query
      = ([], .returned ⟨[("Content-Type", "text/plain; charset=utf-8"),
          ("X-Content-Type-Options", "nosniff")], some 400,
          "username parameter is required\n"⟩) := by
  have hu : queryGet query "username" = "" := by
    rcases h with h | ⟨rest, h⟩ <;> simp [queryGet, h]
  rw [handle_of_no_username env query hu, httpError_fresh]
  rfl

/-- C4 at a concrete input: a request with `type=PushEvent` and an empty
`username`. -/
theorem C4_missing_username_witness :
    (sampleQuery "" "PushEvent" "username" = [] ∨
        ∃ rest, sampleQuery "" "PushEvent" "username" = "" :: rest) ∧
      handleActivity envPush (sampleQuery "" "PushEvent")
        = ([], .returned ⟨[("Content-Type", "text/plain; charset=utf-8"),
            ("X-Content-Type-Options", "nosniff")], some 400,
            "username parameter is required\n"⟩) :=
  ⟨Or.inr ⟨[], rfl⟩, C4_missing_username envPush (sampleQuery "" "PushEvent") (Or.inr ⟨[], rfl⟩)⟩

/-- C6, as stated, fails: when the upstream answers 404 the body is the
error message followed by a newline, not the message alone. -/
theorem C6_counterexample :
    ¬ ∀ (env : Env) (query : String → List String) (acts : Slice Activity) (msg : String),
        queryGet query "username" ≠ "" →
        (fetchGithubActivity env (queryGet query "username") (queryGet query "type")).2
          = .returned (acts, some msg) →
        ∃ w : ResponseWriter, (handleActivity env query).2 = .returned w ∧
          w.Code = some 500 ∧ w.Body = msg := by
  intro h
  obtain ⟨w, hw, -, hbody⟩ :=
    h env404 (sampleQuery "octocat" "") none "API returned status code 404" (by decide) (by decide)
  have hr : (handleActivity env404 (sampleQuery "octocat" "")).2
      = .returned ⟨[("Content-Type", "text/plain; charset=utf-8"),
          ("X-Content-Type-Options", "nosniff")], some 500,
          "API returned status code 404\n"⟩ := by decide
  rw [hr] at hw
  simp only [Exec.returned.injEq] at hw
  rw [← hw] at hbody
  revert hbody
  decide

/-- C6, amended: for every non-empty username, whenever
`fetchGithubActivity` returns an error (of any kind), the handler makes the
same outbound calls and responds with status 500, plain-text headers, and a
body equal to the error's message followed by a newline; nothing else is
written. -/
theorem C6_fetch_error_is_500 (env : Env) (query : String → List String)
    (acts : Slice Activity) (msg : String)
    (hu : queryGet query "username" ≠ "")
    (hf : (fetchGithubActivity env (queryGet query "username") (queryGet query "type")).2
      = .returned (acts, some msg)) :
    handleActivity env query
      = ((fetchGithubActivity env (queryGet query "username") (queryGet query "type")).1,
          .returned ⟨[("Content-Type", "text/plain; charset=utf-8"),
            ("X-Content-Type-Options", "nosniff")], some 500, msg ++ "\n"⟩) := by
  have hpair : fetchGithubActivity env (queryGet query "username") (queryGet query "type")
      = ((fetchGithubActivity env (queryGet query "username") (queryGet query "type")).1,
          .returned (acts, some msg)) := by
    rw [← hf]
  rw [handle_of_fetch_error env query _ acts msg hu hpair, httpError_fresh]

/-- C6 at a concrete input: the upstream answers 404. -/
theorem C6_fetch_error_is_500_witness :
    queryGet (sampleQuery "octocat" "") "username" ≠ "" ∧
      (fetchGithubActivity env404 (queryGet (sampleQuery "octocat" "") "username")
          (queryGet (sampleQuery "octocat" "") "type")).2
        = .returned (none, some "API returned status code 404") ∧
      handleActivity env404 (sampleQuery "octocat" "")
        = ((fetchGithubActivity env404 (queryGet (sampleQuery "octocat" "") "username")
              (queryGet (sampleQuery "octocat" "") "type")).1,
            .returned ⟨[("Content-Type", "text/plain; charset=utf-8"),
              ("X-Content-Type-Options", "nosniff")], some 500,
              "API returned status code 404" ++ "\n"⟩) :=
  ⟨by decide, by decide,
    C6_fetch_error_is_500 env404 (sampleQuery "octocat" "") none "API returned status code 404"
      (by decide) (by decide)⟩

/-- C7, as stated, fails: when the upstream answers 200 with `[]`, the body
is the JSON text followed by a newline, not the JSON text alone. -/
theorem C7_counterexample :
    ¬ ∀ (env : Env) (query : String → List String) (req : Request) (resp : HttpResponse),
        queryGet query "username" ≠ "" →
        (fetchGithubActivity env (queryGet query "username") (queryGet query "type")).1 = [req] →
        env.Do req = .ok resp → resp.StatusCode = 200 →
        (resp.Body = .value (.array []) ∨
          ∃ events, decodeEvents resp.Body = some events ∧ queryGet query "type" ≠ "" ∧
            ∀ e ∈ events.elems, e.Type_ ≠ queryGet query "type") →
        (fetchGithubActivity env (queryGet query "username") (queryGet query "type")).2
            = .returned (some [], none) ∧
          ∃ w : ResponseWriter, (handleActivity env query).2 = .returned w ∧
            w.Header = [("Content-Type", "application/json")] ∧
            w.Body = "\x7b\"activities\":[]\x7d" := by
  intro h
  obtain ⟨-, w, hw, -, hbody⟩ :=
    h envEmptyArray (sampleQuery "octocat" "")
      ⟨"GET", "https://api.github.com/users/octocat/events", []⟩
      ⟨200, .value (.array [])⟩ (by decide) (by decide) rfl rfl (Or.inl rfl)
  have hr : (handleActivity envEmptyArray (sampleQuery "octocat" "")).2
      = .returned ⟨[("Content-Type", "application/json")], some 200,
          "\x7b\"activities\":[]\x7d\n"⟩ := by decide
  rw [hr] at hw
  simp only [Exec.returned.injEq] at hw
  rw [← hw] at hbody
  revert hbody
  decide

/-- C7, amended: for a non-empty username, when the request sent is answered
200 with the body `[]`, or with a body that decodes to events none of which
has the non-empty filter's type, `fetchGithubActivity` returns the empty
non-nil slice and no error, and the handler responds with status 200, the
header `Content-Type: application/json`, and the body `{"activities":[]}`
followed by a newline. -/
theorem C7_no_activities (env : Env) (query : String → List String) (req : Request)
    (resp : HttpResponse)
    (hu : queryGet query "username" ≠ "")
    (hcall : (fetchGithubActivity env (queryGet query "username") (queryGet query "type")).1
      = [req])
    (hdo : env.Do req = .ok resp) (hs : resp.StatusCode = 200)
    (hbody : resp.Body = .value (.array []) ∨
      ∃ events, decodeEvents resp.Body = some events ∧ queryGet query "type" ≠ "" ∧
        ∀ e ∈ events.elems, e.Type_ ≠ queryGet query "type") :
    (fetchGithubActivity env (queryGet query "username") (queryGet query "type")).2
        = .returned (some [], none) ∧
      handleActivity env query
        = ([req], .returned ⟨[("Content-Type", "application/json")], some 200,
            "\x7b\"activities\":[]\x7d\n"⟩) := by
  obtain ⟨hp, rfl⟩ := fetch_calls env _ _ req hcall
  have hdec : ∃ events, decodeEvents resp.Body = some events ∧
      translate (queryGet query "type") events = [] := by
    rcases hbody with hb | ⟨events, hd, ht, hne⟩
    · refine ⟨some [], ?_, rfl⟩
      rw [hb]
      rfl
    · refine ⟨events, hd, ?_⟩
      rw [translate_eq, List.map_eq_nil_iff, List.filter_eq_nil_iff]
      intro e he
      simp [kept_of_ne ht, hne e he]
  obtain ⟨events, hd, htr⟩ := hdec
  have hfetch : fetchGithubActivity env (queryGet query "username") (queryGet query "type")
      = ([outboundRequest env (queryGet query "username")], .returned (some [], none)) := by
    rw [fetch_of_parses env _ _ hp, hdo]
    simp [hs, hd, htr]
  refine ⟨by rw [hfetch], ?_⟩
  rw [handle_of_fetch_ok env query _ (some []) hu hfetch]
  rfl

/-- C7 at a concrete input: the upstream answers 200 with `[]`. -/
theorem C7_no_activities_witness :
    queryGet (sampleQuery "octocat" "") "username" ≠ "" ∧
      (fetchGithubActivity envEmptyArray (queryGet (sampleQuery "octocat" "") "username")
          (queryGet (sampleQuery "octocat" "") "type")).2
        = .returned (some [], none) ∧
      handleActivity envEmptyArray (sampleQuery "octocat" "")
        = ([⟨"GET", "https://api.github.com/users/octocat/events", []⟩],
            .returned ⟨[("Content-Type", "application/json")], some 200,
              "\x7b\"activities\":[]\x7d\n"⟩) :=
  ⟨by decide,
    C7_no_activities envEmptyArray (sampleQuery "octocat" "")
      ⟨"GET", "https://api.github.com/users/octocat/events", []⟩
      ⟨200, .value (.array [])⟩ (by decide) (by decide) rfl rfl (Or.inl rfl)⟩

end GithubActivity
